import Mathlib

/-!
# Moodlium: the Moodle web-service client (`moodle/moodleClient.go`)

A shallow embedding of `MoodleClient.Login`, `MoodleClient.makeRequest` and
`MoodleClient.downloadFile`.

The three methods are sequential code around calls into the Go standard
library (`net/url`, `net/http`, `io`, `encoding/json`, `os`, `path/filepath`).
Those calls are not part of the repository; they are collected in the record
`Env`, one field per library call, and every method takes the `Env` it runs in.
The mutable client, the caller's parameter map, the requests handed to
`mc.Client.Do` and the file-system calls are passed and returned explicitly.
-/

namespace Moodle

/-! ## Go values -/

/-- A Go `error` value that is not nil.  `fromLib` is an error handed back by a
library call and returned unchanged by the client, `errorf` is an error the
client builds itself with `fmt.Errorf`. -/
inductive GoError where
  | fromLib (msg : String)
  | errorf (msg : String)
  deriving DecidableEq, Repr

/-- The text of `err.Error()`. -/
def GoError.message : GoError → String
  | .fromLib msg => msg
  | .errorf msg => msg

/-- The Go type `url.Values` (`map[string][]string`): the values stored under
each key, in order; a key that is absent has no values. -/
abbrev Values := String → List String

/-- The literal `url.Values{}`. -/
def Values.empty : Values := fun _ => []

/-- The method `url.Values.Set`: replaces whatever is stored under `key`. -/
def Values.Set (v : Values) (key value : String) : Values :=
  fun k => if k = key then [value] else v k

/-- The method `url.Values.Add`: appends to whatever is stored under `key`. -/
def Values.Add (v : Values) (key value : String) : Values :=
  fun k => if k = key then v k ++ [value] else v k

/-- A non-nil Go `map[string]string`: finitely many entries, one per key. -/
abbrev StrMap := AList (fun _ : String => String)

/-- The Go statement `m[key] = value` on a non-nil map. -/
def StrMap.assign (m : StrMap) (key value : String) : StrMap := m.insert key value

/-- The Go loop `for key, value := range m { q.Add(key, value) }`, visiting the
entries in the order `order`. -/
def addAll (q : Values) (order : List (Sigma fun _ : String => String)) : Values :=
  order.foldl (fun acc kv => acc.Add kv.1 kv.2) q

/-- The request given to `mc.Client.Do`: the method and URL text passed to
`http.NewRequest`, and the query finally stored in `req.URL.RawQuery`
(`Values.Encode` of these values, which replaces the query the URL text had). -/
structure Request where
  Method : String
  URL : String
  Query : Values

/-- What the client reads of an `http.Response`: the status code and the
outcome of reading the body to its end (the bytes, or a read error). -/
structure Response where
  StatusCode : Int
  Body : Except String String

/-- The Go struct `TokenResponse` with its four string fields. -/
structure TokenResponse where
  Token : String
  PrivateToken : String
  Error : String
  ErrorCode : String
  deriving DecidableEq, Repr

/-- The fields of the Go struct `MoodleClient` that are plain data (`CourseApi`,
`Jar` and `Client` are handles; the transport behind `Client` is `Env.Do`). -/
structure MoodleClient where
  ServiceUrl : String
  Token : String
  PrivateToken : String
  Username : String
  SkipSSL : Bool
  deriving DecidableEq, Repr

/-- A call into `os` that touches the file system after the `os.Stat` probe. -/
inductive FsOp where
  | mkdirAll (dir : String)
  | create (path : String)
  | copy (path : String)
  deriving DecidableEq, Repr

/-- The library calls the client makes, as the world answers them.
* `urlParse s`: `url.Parse s` inside `http.NewRequest`; an error text when the
  URL is rejected, else the query the URL text itself carries, as
  `req.URL.Query()` decodes it.
* `Do`: `mc.Client.Do`; a transport error or the response.
* `Unmarshal`: `json.Unmarshal(body, &tokenResp)` on a zero `TokenResponse`.
* `Stat`: `os.Stat(path)`; an error or `fileInfo.Size()`.
* `Dir`: `filepath.Dir`.
* `MkdirAll`, `Create`: the error of `os.MkdirAll(dir, os.ModePerm)` and of
  `os.Create(path)`, if any.
* `Write`: the error, if any, of writing the given bytes to the created file. -/
structure Env where
  urlParse : String → Except String Values
  Do : Request → Except String Response
  Unmarshal : String → Except String TokenResponse
  Stat : String → Except String Int
  Dir : String → String
  MkdirAll : String → Option String
  Create : String → Option String
  Write : String → String → Option String

/-- The course of a call: it returns, or it panics. -/
inductive Exec (α : Type) where
  | returned (a : α)
  | panicked (msg : String)

/-! ## `Login` -/

/-- What `Login` leaves behind: the client, the returned `error` (`none` is
`nil`) and the requests given to `mc.Client.Do`. -/
structure LoginResult where
  mc : MoodleClient
  err : Option GoError
  sent : List Request

/-- The request `Login` builds (source lines 53 to 62): `http.NewRequest("POST",
loginURL, nil)` with `req.URL.RawQuery = data.Encode()`. -/
def loginRequest (mc : MoodleClient) (username password : String) : Request :=
  let loginURL := mc.ServiceUrl ++ "/login/token.php"
  let data := ((Values.empty.Set "username" username).Set "password" password).Set
    "service" "moodle_mobile_app"
  ⟨"POST", loginURL, data⟩

/-- The method `MoodleClient.Login`. -/
def Login (env : Env) (mc : MoodleClient) (username password : String) : LoginResult :=
  match env.urlParse (mc.ServiceUrl ++ "/login/token.php") with
  | .error e => ⟨mc, some (.fromLib e), []⟩
  | .ok _ =>
    let req := loginRequest mc username password
    match env.Do req with
    | .error e => ⟨mc, some (.fromLib e), [req]⟩
    | .ok resp =>
      match resp.Body with
      | .error e => ⟨mc, some (.fromLib e), [req]⟩
      | .ok body =>
        match env.Unmarshal body with
        | .error e => ⟨mc, some (.fromLib e), [req]⟩
        | .ok tokenResp =>
          if tokenResp.Error ≠ "" then
            ⟨mc, some (.errorf ("failed to obtain token: " ++ tokenResp.Error)), [req]⟩
          else
            ⟨{ mc with Token := tokenResp.Token, PrivateToken := tokenResp.PrivateToken,
                       Username := username }, none, [req]⟩

/-! ## `makeRequest` -/

/-- What `makeRequest` leaves behind: the returned bytes (`none` is `nil`), the
returned `error`, the caller's map as it is after the call, and the requests
given to `mc.Client.Do`. -/
structure RequestResult where
  body : Option String
  err : Option GoError
  params : StrMap
  sent : List Request

/-- The three assignments `makeRequest` makes to the caller's map (source lines
100 to 102). -/
def withReserved (mc : MoodleClient) (function : String) (p0 : StrMap) : StrMap :=
  ((p0.assign "wstoken" mc.Token).assign "wsfunction" function).assign
    "moodlewsrestformat" "json"

/-- The method `MoodleClient.makeRequest`.  `params = none` is the nil map, on
which the first assignment panics.  The `range` loop visits the entries of the
map in the order they are listed; `addAll_order_irrelevant` shows that any
other order builds the same query. -/
def makeRequest (env : Env) (mc : MoodleClient) (function : String)
    (params : Option StrMap) (url : String) : Exec RequestResult :=
  let webserviceURL := mc.ServiceUrl ++ url
  match params with
  | none => .panicked "assignment to entry in nil map"
  | some p0 =>
    let p := withReserved mc function p0
    match env.urlParse webserviceURL with
    | .error e => .returned ⟨none, some (.fromLib e), p, []⟩
    | .ok q0 =>
      let req : Request := ⟨"GET", webserviceURL, addAll q0 p.entries⟩
      match env.Do req with
      | .error e => .returned ⟨none, some (.fromLib e), p, [req]⟩
      | .ok resp =>
        match resp.Body with
        | .error e => .returned ⟨none, some (.fromLib e), p, [req]⟩
        | .ok body => .returned ⟨some body, none, p, [req]⟩

/-- The method `MoodleClient.makeWebserviceRequest`. -/
def makeWebserviceRequest (env : Env) (mc : MoodleClient) (function : String)
    (params : Option StrMap) : Exec RequestResult :=
  makeRequest env mc function params "/webservice/rest/server.php"

/-- The method `MoodleClient.makeModRequest`. -/
def makeModRequest (env : Env) (mc : MoodleClient) (function : String)
    (params : Option StrMap) : Exec RequestResult :=
  makeRequest env mc function params "/mod/assign/view.php"

/-! ## `downloadFile` -/

/-- What `downloadFile` leaves behind: the returned `error`, the requests given
to `mc.Client.Do` and the file-system calls made after the `os.Stat` probe. -/
structure DownloadResult where
  err : Option GoError
  sent : List Request
  fsOps : List FsOp

/-- The request `downloadFile` builds (source lines 148 to 155) from a URL text
whose own query is `q0`: `http.NewRequest("GET", url, nil)`, then
`q := req.URL.Query()`, `q.Add("token", mc.Token)`, `req.URL.RawQuery = q.Encode()`. -/
def downloadRequest (mc : MoodleClient) (url : String) (q0 : Values) : Request :=
  ⟨"GET", url, q0.Add "token" mc.Token⟩

/-- The part of `downloadFile` after the size probe (source lines 148 to 181). -/
def fetchFile (env : Env) (mc : MoodleClient) (url path : String) : DownloadResult :=
  match env.urlParse url with
  | .error e => ⟨some (.fromLib e), [], []⟩
  | .ok q0 =>
    let req := downloadRequest mc url q0
    match env.Do req with
    | .error e => ⟨some (.fromLib e), [req], []⟩
    | .ok resp =>
      if resp.StatusCode ≠ 200 then
        ⟨some (.errorf ("failed to download file: status code " ++ toString resp.StatusCode)),
          [req], []⟩
      else
        match env.MkdirAll (env.Dir path) with
        | some e => ⟨some (.fromLib e), [req], [.mkdirAll (env.Dir path)]⟩
        | none =>
          match env.Create path with
          | some e => ⟨some (.fromLib e), [req], [.mkdirAll (env.Dir path), .create path]⟩
          | none =>
            let ops := [FsOp.mkdirAll (env.Dir path), .create path, .copy path]
            match resp.Body with
            | .error e => ⟨some (.fromLib e), [req], ops⟩
            | .ok content =>
              match env.Write path content with
              | some e => ⟨some (.fromLib e), [req], ops⟩
              | none => ⟨none, [req], ops⟩

/-- The method `MoodleClient.downloadFile`. -/
def downloadFile (env : Env) (mc : MoodleClient) (url path : String) (filesize : Int) :
    DownloadResult :=
  match env.Stat path with
  | .ok size => if filesize = size then ⟨none, [], []⟩ else fetchFile env mc url path
  | .error _ => fetchFile env mc url path

/-- The method `MoodleClient.DownloadFile`. -/
def DownloadFile (env : Env) (mc : MoodleClient) (url path : String) (filesize : Int) :
    DownloadResult :=
  downloadFile env mc url path filesize

/-! ## Sample worlds

Concrete worlds for the closed statements below.  Each answers the one URL
text, the one body and the one path that the call under study presents, with
the answer the Go library gives there. -/

/-- A world in which `url.Parse` accepts exactly `urlText` (finding the query
`urlQuery` in it), the transport answers every request with `answer`,
`json.Unmarshal` decodes exactly `bodyText` (to `decoded`), `os.Stat` reports
`stat` for every path, and every file-system call after it succeeds. -/
def sampleEnv (urlText : String) (urlQuery : Values) (answer : Except String Response)
    (bodyText : String) (decoded : Except String TokenResponse) (stat : Except String Int) :
    Env where
  urlParse := fun s => if s = urlText then .ok urlQuery else .error "parse error"
  Do := fun _ => answer
  Unmarshal := fun b => if b = bodyText then decoded else .error "unexpected end of JSON input"
  Stat := fun _ => stat
  Dir := fun _ => "."
  MkdirAll := fun _ => none
  Create := fun _ => none
  Write := fun _ _ => none

/-- A client for `https://moodle.example` holding the token `abc123`. -/
def sampleClient : MoodleClient :=
  ⟨"https://moodle.example", "abc123", "", "alice", false⟩

/-- A caller's map that already holds the three reserved keys and one more. -/
def sampleParams : StrMap :=
  ((((∅ : StrMap).assign "wstoken" "evil").assign "wsfunction" "other").assign
    "moodlewsrestformat" "xml").assign "courseid" "7"

/-- A client whose service URL itself carries a query string. -/
def queryUrlClient : MoodleClient :=
  ⟨"https://moodle.example/index.php?wstoken=evil&next=", "abc123", "", "alice", false⟩

/-- The world of `queryUrlClient`: `url.Parse` splits the URL text at its `?`
and `URL.Query()` decodes `wstoken=evil&next=/webservice/rest/server.php`; the
server answers 200 with an empty JSON list. -/
def queryUrlEnv : Env :=
  sampleEnv "https://moodle.example/index.php?wstoken=evil&next=/webservice/rest/server.php"
    ((Values.empty.Add "wstoken" "evil").Add "next" "/webservice/rest/server.php")
    (.ok ⟨200, .ok "[]"⟩) "[]" (.error "json: cannot unmarshal array") (.error "no such file")

/-- The world of `sampleClient` calling `/webservice/rest/server.php`: the URL
text has no query, the server answers 200 with an empty JSON list. -/
def restEnv : Env :=
  sampleEnv "https://moodle.example/webservice/rest/server.php" Values.empty
    (.ok ⟨200, .ok "[]"⟩) "[]" (.error "json: cannot unmarshal array") (.error "no such file")

/-- The world of `sampleClient` calling `/webservice/rest/server.php` when the
server answers `500 Internal Server Error` with an error page. -/
def serverErrorEnv : Env :=
  sampleEnv "https://moodle.example/webservice/rest/server.php" Values.empty
    (.ok ⟨500, .ok "Internal Server Error"⟩) "" (.error "unexpected end of JSON input")
    (.error "no such file")

/-- A client that has not logged in yet. -/
def freshClient : MoodleClient := ⟨"https://moodle.example", "", "", "", false⟩

/-- A client left by an earlier successful login of `bob`. -/
def bobClient : MoodleClient := ⟨"https://moodle.example", "tok-bob", "priv-bob", "bob", false⟩

/-- The world in which the token endpoint of `https://moodle.example` answers
200 with the body `body`, which `json.Unmarshal` decodes to `decoded`. -/
def tokenEnv (body : String) (decoded : TokenResponse) : Env :=
  sampleEnv "https://moodle.example/login/token.php" Values.empty (.ok ⟨200, .ok body⟩)
    body (.ok decoded) (.error "no such file")

/-- The body of scenario 1, with all four members. -/
def successBody : String :=
  "\x7b\"token\":\"abc123\",\"privatetoken\":\"\",\"error\":\"\",\"errorcode\":\"\"\x7d"

/-- The body of scenario 2, a rejected login. -/
def invalidLoginBody : String :=
  "\x7b\"token\":\"\",\"error\":\"Invalid login, please try again\"," ++
    "\"errorcode\":\"invalidlogin\"\x7d"

/-- The body that is the empty JSON object. -/
def emptyObjectBody : String := "\x7b\x7d"

/-- The world of a download from `https://moodle.example/pluginfile.php/42/report.pdf`:
`os.Stat` answers `stat` for every path and the server answers `answer`. -/
def fileEnv (stat : Except String Int) (answer : Response) : Env :=
  sampleEnv "https://moodle.example/pluginfile.php/42/report.pdf" Values.empty (.ok answer)
    "" (.error "unexpected end of JSON input") stat

/-- The world of a download from the URL text `:` while `report.pdf` is absent:
`url.Parse` rejects `:` (it has no scheme before the colon). -/
def colonUrlEnv : Env :=
  { fileEnv (.error "stat report.pdf: no such file or directory") ⟨200, .ok "%PDF"⟩ with
    urlParse := fun s =>
      if s = ":" then .error "parse \":\": missing protocol scheme" else .error "parse error" }

/-! ## Lemmas -/

theorem addAll_apply (l : List (Sigma fun _ : String => String)) (hl : l.NodupKeys)
    (q : Values) (k : String) : addAll q l k = q k ++ (l.dlookup k).toList := by
  induction l generalizing q with
  | nil => simp [addAll]
  | cons kv l ih =>
    obtain ⟨k', v⟩ := kv
    have hk : k' ∉ l.keys := (List.nodupKeys_cons.mp hl).1
    have hnd : l.NodupKeys := (List.nodupKeys_cons.mp hl).2
    have hstep : addAll q (⟨k', v⟩ :: l) = addAll (q.Add k' v) l := rfl
    rw [hstep, ih hnd]
    by_cases h : k = k'
    · subst h
      have hnone : l.dlookup k = none := List.dlookup_eq_none.mpr hk
      simp [Values.Add, hnone]
    · have hl' : List.dlookup k (⟨k', v⟩ :: l) = List.dlookup k l :=
        List.dlookup_cons_ne l ⟨k', v⟩ h
      simp [Values.Add, h, hl']

theorem addAll_entries (p : StrMap) (q : Values) (k : String) :
    addAll q p.entries k = q k ++ (p.lookup k).toList :=
  addAll_apply p.entries p.nodupKeys q k

/-- The order in which `range` visits the map does not matter: every order of
the entries builds the same query. -/
theorem addAll_order_irrelevant (p : StrMap) (q : Values)
    (order : List (Sigma fun _ : String => String)) (h : order.Perm p.entries) :
    addAll q order = addAll q p.entries := by
  funext k
  have hnd : order.NodupKeys := (List.perm_nodupKeys h).mpr p.nodupKeys
  rw [addAll_apply order hnd, addAll_apply p.entries p.nodupKeys,
    List.perm_dlookup k hnd p.nodupKeys h]

theorem lookup_withReserved_wstoken (mc : MoodleClient) (function : String) (p0 : StrMap) :
    (withReserved mc function p0).lookup "wstoken" = some mc.Token := by
  have h1 : ("wstoken" : String) ≠ "moodlewsrestformat" := by decide
  have h2 : ("wstoken" : String) ≠ "wsfunction" := by decide
  simp only [withReserved, StrMap.assign]
  rw [AList.lookup_insert_ne h1, AList.lookup_insert_ne h2, AList.lookup_insert]

theorem lookup_withReserved_wsfunction (mc : MoodleClient) (function : String) (p0 : StrMap) :
    (withReserved mc function p0).lookup "wsfunction" = some function := by
  have h1 : ("wsfunction" : String) ≠ "moodlewsrestformat" := by decide
  simp only [withReserved, StrMap.assign]
  rw [AList.lookup_insert_ne h1, AList.lookup_insert]

theorem lookup_withReserved_format (mc : MoodleClient) (function : String) (p0 : StrMap) :
    (withReserved mc function p0).lookup "moodlewsrestformat" = some "json" := by
  simp only [withReserved, StrMap.assign]
  rw [AList.lookup_insert]

theorem lookup_withReserved_other (mc : MoodleClient) (function : String) (p0 : StrMap)
    (k : String) (h1 : k ≠ "wstoken") (h2 : k ≠ "wsfunction") (h3 : k ≠ "moodlewsrestformat") :
    (withReserved mc function p0).lookup k = p0.lookup k := by
  simp only [withReserved, StrMap.assign]
  rw [AList.lookup_insert_ne h3, AList.lookup_insert_ne h2, AList.lookup_insert_ne h1]

theorem mem_withReserved (mc : MoodleClient) (function : String) (p0 : StrMap) (k : String) :
    k ∈ withReserved mc function p0 ↔
      k ∈ p0 ∨ k = "wstoken" ∨ k = "wsfunction" ∨ k = "moodlewsrestformat" := by
  simp only [withReserved, StrMap.assign, AList.mem_insert]
  tauto

/-- On a non-nil map `makeRequest` returns (it does not panic), and the map it
leaves is the caller's map with the three reserved assignments made. -/
theorem makeRequest_returns (env : Env) (mc : MoodleClient) (function : String)
    (params : StrMap) (url : String) :
    ∃ r, makeRequest env mc function (some params) url = .returned r ∧
      r.params = withReserved mc function params := by
  unfold makeRequest
  simp only []
  split
  · exact ⟨_, rfl, rfl⟩
  · split
    · exact ⟨_, rfl, rfl⟩
    · split
      · exact ⟨_, rfl, rfl⟩
      · exact ⟨_, rfl, rfl⟩

/-- On the nil map `makeRequest` panics at its first assignment, before any
request is built. -/
theorem makeRequest_nil_panics (env : Env) (mc : MoodleClient) (function url : String) :
    makeRequest env mc function none url = .panicked "assignment to entry in nil map" := rfl

/-! ## `makeRequest`: the reserved parameters -/

/-- C1, as stated, fails: when the URL text `ServiceUrl + url` has a query of
its own with the key `wstoken`, the request carries two values under `wstoken`
(the one of the URL text first), not the single value `mc.Token`. -/
theorem makeRequest_url_query_kept :
    ∃ r req, makeRequest queryUrlEnv queryUrlClient "core_webservice_get_site_info"
        (some ∅) "/webservice/rest/server.php" = .returned r ∧ r.sent = [req] ∧
      req.Query "wstoken" = ["evil", "abc123"] ∧
      req.Query "wstoken" ≠ [queryUrlClient.Token] :=
  ⟨_, _, rfl, rfl, by decide, by decide⟩

/-- C1 (amended): for every client, function name and non-nil parameter map
(whatever it holds under the three reserved keys), when `http.NewRequest`
accepts the URL text `ServiceUrl + url`, `makeRequest` builds one GET request
whose query holds under `wstoken`, `wsfunction` and `moodlewsrestformat` the
values the URL text itself carries there followed by `mc.Token`, the function
name and `json`: exactly the single reserved value when the URL text has no
query parameter of that name.  No value of the caller's map under these keys
reaches the request. -/
theorem makeRequest_reserved_query (env : Env) (mc : MoodleClient) (function : String)
    (params : StrMap) (url : String) (q0 : Values)
    (hurl : env.urlParse (mc.ServiceUrl ++ url) = .ok q0) :
    ∃ r req, makeRequest env mc function (some params) url = .returned r ∧ r.sent = [req] ∧
      req.Method = "GET" ∧ req.URL = mc.ServiceUrl ++ url ∧
      req.Query "wstoken" = q0 "wstoken" ++ [mc.Token] ∧
      req.Query "wsfunction" = q0 "wsfunction" ++ [function] ∧
      req.Query "moodlewsrestformat" = q0 "moodlewsrestformat" ++ ["json"] := by
  have hq : ∀ k v, (withReserved mc function params).lookup k = some v →
      addAll q0 (withReserved mc function params).entries k = q0 k ++ [v] := by
    intro k v h
    rw [addAll_entries, h]
    rfl
  have h1 := hq _ _ (lookup_withReserved_wstoken mc function params)
  have h2 := hq _ _ (lookup_withReserved_wsfunction mc function params)
  have h3 := hq _ _ (lookup_withReserved_format mc function params)
  unfold makeRequest
  simp only [hurl]
  split
  · exact ⟨_, _, rfl, rfl, rfl, rfl, h1, h2, h3⟩
  · split
    · exact ⟨_, _, rfl, rfl, rfl, rfl, h1, h2, h3⟩
    · exact ⟨_, _, rfl, rfl, rfl, rfl, h1, h2, h3⟩

/-- Witness for C1 (amended): a caller's map holding `wstoken=evil`,
`wsfunction=other`, `moodlewsrestformat=xml` against a URL text without query. -/
theorem makeRequest_reserved_query_witness :
    restEnv.urlParse (sampleClient.ServiceUrl ++ "/webservice/rest/server.php")
        = .ok Values.empty ∧
    ∃ r req, makeRequest restEnv sampleClient "core_course_get_contents" (some sampleParams)
        "/webservice/rest/server.php" = .returned r ∧ r.sent = [req] ∧
      req.Method = "GET" ∧
      req.URL = sampleClient.ServiceUrl ++ "/webservice/rest/server.php" ∧
      req.Query "wstoken" = Values.empty "wstoken" ++ [sampleClient.Token] ∧
      req.Query "wsfunction" = Values.empty "wsfunction" ++ ["core_course_get_contents"] ∧
      req.Query "moodlewsrestformat" = Values.empty "moodlewsrestformat" ++ ["json"] :=
  ⟨rfl, makeRequest_reserved_query restEnv sampleClient "core_course_get_contents" sampleParams
    "/webservice/rest/server.php" Values.empty rfl⟩

/-- C10: on every non-nil map `makeRequest` returns, with or without error, and
the caller's map then holds `mc.Token` under `wstoken`, the function name under
`wsfunction` and `json` under `moodlewsrestformat`; every other key has the
value it had (or is absent as before), and no key beyond the caller's own and
these three is present. -/
theorem makeRequest_writes_params (env : Env) (mc : MoodleClient) (function : String)
    (params : StrMap) (url : String) :
    ∃ r, makeRequest env mc function (some params) url = .returned r ∧
      r.params.lookup "wstoken" = some mc.Token ∧
      r.params.lookup "wsfunction" = some function ∧
      r.params.lookup "moodlewsrestformat" = some "json" ∧
      (∀ k, k ≠ "wstoken" → k ≠ "wsfunction" → k ≠ "moodlewsrestformat" →
        r.params.lookup k = params.lookup k) ∧
      (∀ k, k ∈ r.params ↔
        k ∈ params ∨ k = "wstoken" ∨ k = "wsfunction" ∨ k = "moodlewsrestformat") := by
  obtain ⟨r, hr, hp⟩ := makeRequest_returns env mc function params url
  refine ⟨r, hr, ?_, ?_, ?_, ?_, ?_⟩
  · rw [hp]; exact lookup_withReserved_wstoken mc function params
  · rw [hp]; exact lookup_withReserved_wsfunction mc function params
  · rw [hp]; exact lookup_withReserved_format mc function params
  · intro k h1 h2 h3
    rw [hp]; exact lookup_withReserved_other mc function params k h1 h2 h3
  · intro k
    rw [hp]; exact mem_withReserved mc function params k

/-- C6, the code at a 500 response: `makeRequest` never reads
`resp.StatusCode`; it returns the body of the error page and a nil error. -/
theorem makeRequest_status_500 :
    ∃ r, makeRequest serverErrorEnv sampleClient "core_course_get_courses" (some ∅)
        "/webservice/rest/server.php" = .returned r ∧
      r.body = some "Internal Server Error" ∧ r.err = none :=
  ⟨_, rfl, rfl, rfl⟩

/-! ## `Login` -/

/-- What `Login` does once the request went out and the body was read and
decoded: the two branches on `tokenResp.Error`. -/
theorem Login_of_decoded (env : Env) (mc : MoodleClient) (username password : String)
    (q0 : Values) (resp : Response) (body : String) (tr : TokenResponse)
    (hurl : env.urlParse (mc.ServiceUrl ++ "/login/token.php") = .ok q0)
    (hdo : env.Do (loginRequest mc username password) = .ok resp)
    (hbody : resp.Body = .ok body) (hjson : env.Unmarshal body = .ok tr) :
    Login env mc username password =
      if tr.Error ≠ "" then
        ⟨mc, some (.errorf ("failed to obtain token: " ++ tr.Error)),
          [loginRequest mc username password]⟩
      else
        ⟨{ mc with Token := tr.Token, PrivateToken := tr.PrivateToken, Username := username },
          none, [loginRequest mc username password]⟩ := by
  unfold Login
  simp only [hurl, hdo, hbody, hjson]

/-- C2: when the token endpoint answers with a body that decodes to a
`TokenResponse` whose `Error` is not empty, `Login` returns a non-nil error
whose message is `failed to obtain token: ` followed by that text verbatim, and
the client is left as it was (so are its `Token`, `PrivateToken`, `Username`). -/
theorem Login_error_field (env : Env) (mc : MoodleClient) (username password : String)
    (q0 : Values) (resp : Response) (body : String) (tr : TokenResponse)
    (hurl : env.urlParse (mc.ServiceUrl ++ "/login/token.php") = .ok q0)
    (hdo : env.Do (loginRequest mc username password) = .ok resp)
    (hbody : resp.Body = .ok body) (hjson : env.Unmarshal body = .ok tr)
    (herr : tr.Error ≠ "") :
    (∃ e, (Login env mc username password).err = some e ∧
      e.message = "failed to obtain token: " ++ tr.Error) ∧
    (Login env mc username password).mc = mc ∧
    (Login env mc username password).mc.Token = mc.Token ∧
    (Login env mc username password).mc.PrivateToken = mc.PrivateToken ∧
    (Login env mc username password).mc.Username = mc.Username := by
  rw [Login_of_decoded env mc username password q0 resp body tr hurl hdo hbody hjson, if_pos herr]
  exact ⟨⟨_, rfl, rfl⟩, rfl, rfl, rfl, rfl⟩

/-- Witness for C2: scenario 2 on a client already logged in as `bob`. -/
theorem Login_error_field_witness :
    (∃ e, (Login (tokenEnv invalidLoginBody ⟨"", "", "Invalid login, please try again",
        "invalidlogin"⟩) bobClient "alice" "wrong").err = some e ∧
      e.message = "failed to obtain token: " ++ "Invalid login, please try again") ∧
    (Login (tokenEnv invalidLoginBody ⟨"", "", "Invalid login, please try again",
      "invalidlogin"⟩) bobClient "alice" "wrong").mc = bobClient :=
  have h := Login_error_field
    (tokenEnv invalidLoginBody ⟨"", "", "Invalid login, please try again", "invalidlogin"⟩)
    bobClient "alice" "wrong" Values.empty ⟨200, .ok invalidLoginBody⟩ invalidLoginBody
    ⟨"", "", "Invalid login, please try again", "invalidlogin"⟩ rfl rfl rfl rfl (by decide)
  ⟨h.1, h.2.1⟩

/-- C5: when the token endpoint answers with a body that decodes to a
`TokenResponse` whose `Error` is empty, `Login` returns nil and the client then
holds the decoded `Token`, the decoded `PrivateToken` (empty or not) and the
supplied username, whatever these three fields held before. -/
theorem Login_success_replaces (env : Env) (mc : MoodleClient) (username password : String)
    (q0 : Values) (resp : Response) (body : String) (tr : TokenResponse)
    (hurl : env.urlParse (mc.ServiceUrl ++ "/login/token.php") = .ok q0)
    (hdo : env.Do (loginRequest mc username password) = .ok resp)
    (hbody : resp.Body = .ok body) (hjson : env.Unmarshal body = .ok tr)
    (herr : tr.Error = "") :
    (Login env mc username password).err = none ∧
    (Login env mc username password).mc.Token = tr.Token ∧
    (Login env mc username password).mc.PrivateToken = tr.PrivateToken ∧
    (Login env mc username password).mc.Username = username := by
  rw [Login_of_decoded env mc username password q0 resp body tr hurl hdo hbody hjson,
    if_neg (not_not.mpr herr)]
  exact ⟨rfl, rfl, rfl, rfl⟩

/-- Witness for C5: scenario 1 on a client already logged in as `bob`. -/
theorem Login_success_replaces_witness :
    (Login (tokenEnv successBody ⟨"abc123", "", "", ""⟩) bobClient "alice" "secret").err = none ∧
    (Login (tokenEnv successBody ⟨"abc123", "", "", ""⟩) bobClient "alice" "secret").mc.Token
      = "abc123" ∧
    (Login (tokenEnv successBody ⟨"abc123", "", "", ""⟩) bobClient "alice" "secret").mc.PrivateToken
      = "" ∧
    (Login (tokenEnv successBody ⟨"abc123", "", "", ""⟩) bobClient "alice" "secret").mc.Username
      = "alice" :=
  Login_success_replaces (tokenEnv successBody ⟨"abc123", "", "", ""⟩) bobClient "alice" "secret"
    Values.empty ⟨200, .ok successBody⟩ successBody ⟨"abc123", "", "", ""⟩ rfl rfl rfl rfl rfl

/-- C8, as stated, fails: the request `Login` issues has the method `POST`,
not `GET`. -/
theorem Login_method_is_post :
    ((Login (tokenEnv successBody ⟨"abc123", "", "", ""⟩) freshClient "alice" "secret").sent.map
      fun req => req.Method) = ["POST"] ∧
    ((Login (tokenEnv successBody ⟨"abc123", "", "", ""⟩) freshClient "alice" "secret").sent.map
      fun req => req.Method) ≠ ["GET"] := by
  constructor <;> decide

/-- C8 (amended): for every service URL that `http.NewRequest` accepts with
`/login/token.php` appended, and every username and password, `Login` issues
one request; its method is `POST`, its URL text is the service URL followed by
`/login/token.php`, and its query holds `username`, `password` and
`service=moodle_mobile_app`, one value each, and nothing under any other key. -/
theorem Login_request_shape (env : Env) (mc : MoodleClient) (username password : String)
    (q0 : Values) (hurl : env.urlParse (mc.ServiceUrl ++ "/login/token.php") = .ok q0) :
    ∃ req, (Login env mc username password).sent = [req] ∧
      req.Method = "POST" ∧ req.URL = mc.ServiceUrl ++ "/login/token.php" ∧
      req.Query "username" = [username] ∧ req.Query "password" = [password] ∧
      req.Query "service" = ["moodle_mobile_app"] ∧
      ∀ k, k ≠ "username" → k ≠ "password" → k ≠ "service" → req.Query k = [] := by
  have hsent : (Login env mc username password).sent = [loginRequest mc username password] := by
    unfold Login
    simp only [hurl]
    split
    · rfl
    · split
      · rfl
      · split
        · rfl
        · split <;> rfl
  refine ⟨_, hsent, rfl, rfl, ?_, ?_, ?_, ?_⟩
  · simp [loginRequest, Values.Set]
  · simp [loginRequest, Values.Set]
  · simp [loginRequest, Values.Set]
  · intro k h1 h2 h3
    simp [loginRequest, Values.Set, Values.empty, h1, h2, h3]

/-- Witness for C8 (amended): `alice` logging in at `https://moodle.example`. -/
theorem Login_request_shape_witness :
    (tokenEnv successBody ⟨"abc123", "", "", ""⟩).urlParse
        (freshClient.ServiceUrl ++ "/login/token.php") = .ok Values.empty ∧
    ∃ req, (Login (tokenEnv successBody ⟨"abc123", "", "", ""⟩) freshClient "alice"
        "secret").sent = [req] ∧
      req.Method = "POST" ∧ req.URL = freshClient.ServiceUrl ++ "/login/token.php" ∧
      req.Query "username" = ["alice"] ∧ req.Query "password" = ["secret"] ∧
      req.Query "service" = ["moodle_mobile_app"] ∧
      ∀ k, k ≠ "username" → k ≠ "password" → k ≠ "service" → req.Query k = [] :=
  ⟨rfl, Login_request_shape (tokenEnv successBody ⟨"abc123", "", "", ""⟩) freshClient "alice"
    "secret" Values.empty rfl⟩

/-- C9, as stated, fails: on the body that is the empty JSON object (which
`json.Unmarshal` decodes to the zero `TokenResponse`) `Login` returns nil and
leaves an empty `Token`. -/
theorem Login_empty_object_token :
    (Login (tokenEnv emptyObjectBody ⟨"", "", "", ""⟩) freshClient "alice" "secret").err = none ∧
    (Login (tokenEnv emptyObjectBody ⟨"", "", "", ""⟩) freshClient "alice" "secret").mc.Token
      = "" := by
  constructor <;> decide

/-- C9 (amended): whenever `Login` returns nil, the token endpoint answered
with a body that decoded to a `TokenResponse` with an empty `Error`, and the
client's `Token` is the decoded `Token`: it is non-empty afterwards exactly
when the response carried a non-empty token. -/
theorem Login_nil_token (env : Env) (mc : MoodleClient) (username password : String)
    (hnil : (Login env mc username password).err = none) :
    ∃ resp body tr, env.Do (loginRequest mc username password) = .ok resp ∧
      resp.Body = .ok body ∧ env.Unmarshal body = .ok tr ∧ tr.Error = "" ∧
      (Login env mc username password).mc.Token = tr.Token ∧
      ((Login env mc username password).mc.Token ≠ "" ↔ tr.Token ≠ "") := by
  cases hq : env.urlParse (mc.ServiceUrl ++ "/login/token.php") with
  | error e => simp [Login, hq] at hnil
  | ok q0 =>
    cases hresp : env.Do (loginRequest mc username password) with
    | error e => simp [Login, hq, hresp] at hnil
    | ok resp =>
      cases hb : resp.Body with
      | error e => simp [Login, hq, hresp, hb] at hnil
      | ok body =>
        cases htr : env.Unmarshal body with
        | error e => simp [Login, hq, hresp, hb, htr] at hnil
        | ok tr =>
          have hL := Login_of_decoded env mc username password q0 resp body tr hq hresp hb htr
          by_cases he : tr.Error = ""
          · rw [hL, if_neg (not_not.mpr he)]
            exact ⟨resp, body, tr, rfl, hb, htr, he, rfl, Iff.rfl⟩
          · rw [hL, if_pos he] at hnil
            simp at hnil

/-- Witness for C9 (amended): scenario 1 on a fresh client. -/
theorem Login_nil_token_witness :
    (Login (tokenEnv successBody ⟨"abc123", "", "", ""⟩) freshClient "alice" "secret").err = none ∧
    ∃ resp body tr,
      (tokenEnv successBody ⟨"abc123", "", "", ""⟩).Do (loginRequest freshClient "alice" "secret")
        = .ok resp ∧
      resp.Body = .ok body ∧
      (tokenEnv successBody ⟨"abc123", "", "", ""⟩).Unmarshal body = .ok tr ∧ tr.Error = "" ∧
      (Login (tokenEnv successBody ⟨"abc123", "", "", ""⟩) freshClient "alice" "secret").mc.Token
        = tr.Token ∧
      ((Login (tokenEnv successBody ⟨"abc123", "", "", ""⟩) freshClient "alice" "secret").mc.Token
        ≠ "" ↔ tr.Token ≠ "") :=
  ⟨by decide, Login_nil_token (tokenEnv successBody ⟨"abc123", "", "", ""⟩) freshClient "alice"
    "secret" (by decide)⟩

/-! ## `downloadFile` -/

/-- When the size probe does not find a file of the expected size,
`downloadFile` is the fetch. -/
theorem downloadFile_eq_fetchFile (env : Env) (mc : MoodleClient) (url path : String)
    (filesize : Int) (hstat : ∀ size, env.Stat path = .ok size → size ≠ filesize) :
    downloadFile env mc url path filesize = fetchFile env mc url path := by
  unfold downloadFile
  split
  · rename_i size hs
    have hne : ¬ filesize = size := fun h => hstat size hs h.symm
    simp [hne]
  · rfl

/-- The requests the fetch hands to the transport: none when `http.NewRequest`
rejects the URL text, one otherwise. -/
theorem fetchFile_sent (env : Env) (mc : MoodleClient) (url path : String) :
    (fetchFile env mc url path).sent =
      match env.urlParse url with
      | .error _ => []
      | .ok q0 => [downloadRequest mc url q0] := by
  unfold fetchFile
  split
  · rfl
  · simp only []
    split
    · rfl
    · split
      · rfl
      · split
        · rfl
        · split
          · rfl
          · split
            · rfl
            · split <;> rfl

/-- C3: when `os.Stat` finds a file at `path` whose size is `filesize`,
`downloadFile` returns nil, hands no request to the transport and makes no
file-system call (no `MkdirAll`, no `Create`, no write). -/
theorem downloadFile_skip (env : Env) (mc : MoodleClient) (url path : String)
    (filesize size : Int) (hstat : env.Stat path = .ok size) (hsize : size = filesize) :
    (downloadFile env mc url path filesize).err = none ∧
    (downloadFile env mc url path filesize).sent = [] ∧
    (downloadFile env mc url path filesize).fsOps = [] := by
  unfold downloadFile
  simp [hstat, hsize]

/-- Witness for C3: scenario 3, `report.pdf` of 2048 bytes. -/
theorem downloadFile_skip_witness :
    (fileEnv (.ok 2048) ⟨200, .ok "%PDF"⟩).Stat "report.pdf" = .ok 2048 ∧
    (downloadFile (fileEnv (.ok 2048) ⟨200, .ok "%PDF"⟩) sampleClient
      "https://moodle.example/pluginfile.php/42/report.pdf" "report.pdf" 2048).err = none ∧
    (downloadFile (fileEnv (.ok 2048) ⟨200, .ok "%PDF"⟩) sampleClient
      "https://moodle.example/pluginfile.php/42/report.pdf" "report.pdf" 2048).sent = [] ∧
    (downloadFile (fileEnv (.ok 2048) ⟨200, .ok "%PDF"⟩) sampleClient
      "https://moodle.example/pluginfile.php/42/report.pdf" "report.pdf" 2048).fsOps = [] :=
  ⟨rfl, downloadFile_skip (fileEnv (.ok 2048) ⟨200, .ok "%PDF"⟩) sampleClient
    "https://moodle.example/pluginfile.php/42/report.pdf" "report.pdf" 2048 2048 rfl rfl⟩

/-- C4, as stated, fails: for the URL text `:`, which `url.Parse` rejects, and
an absent `report.pdf`, `downloadFile` returns the error of `http.NewRequest`
and hands no request to the transport. -/
theorem downloadFile_rejected_url :
    colonUrlEnv.Stat "report.pdf" = .error "stat report.pdf: no such file or directory" ∧
    (downloadFile colonUrlEnv sampleClient ":" "report.pdf" 2048).sent.length = 0 ∧
    (downloadFile colonUrlEnv sampleClient ":" "report.pdf" 2048).err
      = some (.fromLib "parse \":\": missing protocol scheme") :=
  ⟨rfl, by decide, by decide⟩

/-- C4 (amended): when the path is absent (`os.Stat` fails) or the file found
has another size than `filesize`, `downloadFile` hands to the transport exactly
one request if `http.NewRequest` accepts the URL text (a GET of that URL with
`token=mc.Token` added to its query), whatever the outcome of the call, and no
request if `http.NewRequest` rejects it, whose error is then returned. -/
theorem downloadFile_request_count (env : Env) (mc : MoodleClient) (url path : String)
    (filesize : Int) (hstat : ∀ size, env.Stat path = .ok size → size ≠ filesize) :
    (∀ q0, env.urlParse url = .ok q0 →
      (downloadFile env mc url path filesize).sent = [downloadRequest mc url q0] ∧
      (downloadFile env mc url path filesize).sent.length = 1) ∧
    (∀ e, env.urlParse url = .error e →
      (downloadFile env mc url path filesize).sent = [] ∧
      (downloadFile env mc url path filesize).err = some (.fromLib e)) := by
  rw [downloadFile_eq_fetchFile env mc url path filesize hstat]
  constructor
  · intro q0 hq
    rw [fetchFile_sent, hq]
    exact ⟨rfl, rfl⟩
  · intro e he
    rw [fetchFile_sent, he]
    refine ⟨rfl, ?_⟩
    unfold fetchFile
    simp only [he]

/-- Witness for C4 (amended): a `report.pdf` of 100 bytes where 2048 are
expected; one request goes out. -/
theorem downloadFile_request_count_witness :
    (∀ size, (fileEnv (.ok 100) ⟨200, .ok "%PDF"⟩).Stat "report.pdf" = .ok size → size ≠ 2048) ∧
    (downloadFile (fileEnv (.ok 100) ⟨200, .ok "%PDF"⟩) sampleClient
      "https://moodle.example/pluginfile.php/42/report.pdf" "report.pdf" 2048).sent.length = 1 :=
  have hstat : ∀ size, (fileEnv (.ok 100) ⟨200, .ok "%PDF"⟩).Stat "report.pdf" = .ok size →
      size ≠ 2048 := by
    intro size h
    have h100 : (100 : Int) = size := Except.ok.inj h
    omega
  ⟨hstat, ((downloadFile_request_count (fileEnv (.ok 100) ⟨200, .ok "%PDF"⟩) sampleClient
    "https://moodle.example/pluginfile.php/42/report.pdf" "report.pdf" 2048 hstat).1
    Values.empty rfl).2⟩

/-- C7, as stated, fails: on a `204 No Content` response, a status inside 2xx,
`downloadFile` returns the status error. -/
theorem downloadFile_status_204 :
    (downloadFile (fileEnv (.error "stat report.pdf: no such file or directory") ⟨204, .ok ""⟩)
      sampleClient "https://moodle.example/pluginfile.php/42/report.pdf" "report.pdf" 2048).err
      = some (.errorf "failed to download file: status code 204") ∧
    (200 : Int) ≤ 204 ∧ (204 : Int) < 300 :=
  ⟨by decide, by decide, by decide⟩

/-- C7 (amended): for every `downloadFile` call that reaches the network and
receives a response, the error returned is the status error built by
`fmt.Errorf` exactly when the status code is not 200; in that case its message
is `failed to download file: status code ` followed by the decimal status code,
the one request of the call is the only one handed to the transport, and no
file-system call is made (no directory and no file is created). -/
theorem downloadFile_status_error (env : Env) (mc : MoodleClient) (url path : String)
    (filesize : Int) (q0 : Values) (resp : Response)
    (hstat : ∀ size, env.Stat path = .ok size → size ≠ filesize)
    (hurl : env.urlParse url = .ok q0)
    (hdo : env.Do (downloadRequest mc url q0) = .ok resp) :
    ((∃ msg, (downloadFile env mc url path filesize).err = some (.errorf msg)) ↔
      resp.StatusCode ≠ 200) ∧
    (resp.StatusCode ≠ 200 →
      (downloadFile env mc url path filesize).err = some (.errorf
        ("failed to download file: status code " ++ toString resp.StatusCode)) ∧
      (downloadFile env mc url path filesize).sent = [downloadRequest mc url q0] ∧
      (downloadFile env mc url path filesize).fsOps = []) := by
  rw [downloadFile_eq_fetchFile env mc url path filesize hstat]
  by_cases hs : resp.StatusCode = 200
  · have hno : ¬ ∃ msg, (fetchFile env mc url path).err = some (.errorf msg) := by
      rintro ⟨msg, hmsg⟩
      unfold fetchFile at hmsg
      simp only [hurl, hdo, hs, ne_eq, not_true_eq_false, if_false] at hmsg
      cases hm : env.MkdirAll (env.Dir path) with
      | some e => simp [hm] at hmsg
      | none =>
        cases hc : env.Create path with
        | some e => simp [hm, hc] at hmsg
        | none =>
          cases hb : resp.Body with
          | error e => simp [hm, hc, hb] at hmsg
          | ok content =>
            cases hw : env.Write path content with
            | some e => simp [hm, hc, hb, hw] at hmsg
            | none => simp [hm, hc, hb, hw] at hmsg
    exact ⟨⟨fun h => absurd h hno, fun h => absurd hs h⟩, fun h => absurd hs h⟩
  · have hfetch : fetchFile env mc url path =
        ⟨some (.errorf ("failed to download file: status code " ++ toString resp.StatusCode)),
          [downloadRequest mc url q0], []⟩ := by
      unfold fetchFile
      simp only [hurl, hdo]
      simp [hs, downloadRequest]
    rw [hfetch]
    exact ⟨⟨fun _ => hs, fun _ => ⟨_, rfl⟩⟩, fun _ => ⟨rfl, rfl, rfl⟩⟩

/-- Witness for C7 (amended): a `404 Not Found` answer for an absent file. -/
theorem downloadFile_status_error_witness :
    (downloadFile (fileEnv (.error "stat report.pdf: no such file or directory")
      ⟨404, .ok "Not Found"⟩) sampleClient "https://moodle.example/pluginfile.php/42/report.pdf"
      "report.pdf" 2048).err = some (.errorf ("failed to download file: status code " ++
        toString (404 : Int))) ∧
    (downloadFile (fileEnv (.error "stat report.pdf: no such file or directory")
      ⟨404, .ok "Not Found"⟩) sampleClient "https://moodle.example/pluginfile.php/42/report.pdf"
      "report.pdf" 2048).fsOps = [] :=
  have h := (downloadFile_status_error
    (fileEnv (.error "stat report.pdf: no such file or directory") ⟨404, .ok "Not Found"⟩)
    sampleClient "https://moodle.example/pluginfile.php/42/report.pdf" "report.pdf" 2048
    Values.empty ⟨404, .ok "Not Found"⟩ (fun _ h => nomatch h) rfl rfl).2 (by decide)
  ⟨h.1, h.2.2⟩

end Moodle
